import Mathlib

/-!
Verification development for the bifrost-go substrate client.

The Go sources are embedded shallowly:
* `tx` package (transaction builder / era encoder / signer, `src/unnamed/part_000`):
  pure Lean functions over `Nat` with explicit `% 2 ^ 64` where Go's `uint64`
  arithmetic can wrap, and `% 2 ^ 8` for `byte(...)` casts.
* `client` package (`src/client/client.go`): the block parser
  (`parseExtrinsicByDecode`) and event correlator (`parseExtrinsicByStorage`)
  are embedded as explicit state-passing functions.  External collaborators
  (SCALE codec, JSON round-trips, ss58 address codec, blake2b, the fee RPC and
  the signing primitive) are supplied as function-valued capabilities, mirroring
  the spec's "consumed as an opaque capability" boundary.  Go panics that the
  sources catch with `recover` are modelled as an explicit `panicked` outcome.

Byte strings are `List Nat` (each entry one byte), hex strings are `String`.
-/

/-! ## Era encoder (`tx.getEra`, src/unnamed/part_000 lines 232-260) -/

/-- `types.MortalEra` of the external gsrpc library: the two era bytes. -/
structure MortalEra where
  First : Nat
  Second : Nat
deriving DecidableEq, Repr, Inhabited

/-- `types.ExtrinsicEra` of the external gsrpc library (zero value: both flags
false). -/
structure ExtrinsicEra where
  IsImmortalEra : Bool := false
  IsMortalEra : Bool := false
  AsMortalEra : MortalEra := ⟨0, 0⟩
deriving DecidableEq, Repr, Inhabited

/-- The `encoded` value computed by `getEra` just before it is split into the
two era bytes.  Mirrors src/unnamed/part_000 lines 236-252 for non-zero inputs:
`phase := blockNumber % eraPeriod`, `index := 6`, `trailingZero := index - 1`,
two successive clamp assignments to `encoded`, then
`encoded += phase / 1 << 4` in `uint64` arithmetic (hence the `% 2 ^ 64`). -/
def getEraEncoded (blockNumber eraPeriod : Nat) : Nat :=
  let phase := blockNumber % eraPeriod
  let index : Nat := 6
  let trailingZero := index - 1
  let encoded := if trailingZero > 1 then trailingZero else 1
  let encoded := if trailingZero < 15 then trailingZero else 15
  (encoded + phase / 1 * 2 ^ 4 % 2 ^ 64) % 2 ^ 64

/-- `tx.getEra` (src/unnamed/part_000 lines 232-260).  Returns `none` (Go:
`nil`, meaning the immortal default) when either input is zero; otherwise a
mortal era whose bytes are `byte(encoded >> 8)` and `byte(encoded & 0xff)`,
written here as `/ 2 ^ 8 % 2 ^ 8` and `% 2 ^ 8`. -/
def getEra (blockNumber eraPeriod : Nat) : Option ExtrinsicEra :=
  if blockNumber = 0 ∨ eraPeriod = 0 then
    none
  else
    let encoded := getEraEncoded blockNumber eraPeriod
    let first := encoded / 2 ^ 8 % 2 ^ 8
    let second := encoded % 2 ^ 8
    some { IsImmortalEra := false, IsMortalEra := true, AsMortalEra := ⟨first, second⟩ }

/-- The claim's 16-bit reconstruction `(second as u16) | ((first as u16) << 8)`
of a mortal era's two bytes. -/
def recombineEra (e : ExtrinsicEra) : Nat :=
  e.AsMortalEra.Second ||| (e.AsMortalEra.First <<< 8)

/-! ## Transaction builder and signer (`tx` package) -/

/-- The encoded call attached to a transaction (`types.Call` is external to the
repository; the claims treat it opaquely, so it is modelled as its SCALE byte
representation). -/
abbrev Call := List Nat

/-- `tx.SubstrateTransaction` (src/unnamed/part_000 lines 19-30). -/
structure SubstrateTransaction where
  SenderPubkey : String
  Nonce : Nat
  BlockHash : String
  GenesisHash : String
  SpecVersion : Nat
  TransactionVersion : Nat
  Tip : Nat
  BlockNumber : Nat
  EraPeriod : Nat
  call : Call
deriving DecidableEq, Repr, Inhabited

/-- `tx.SubstrateTransaction.SetSpecAndTxVersion` (src/unnamed/part_000 lines
51-55). -/
def SetSpecAndTxVersion (tx : SubstrateTransaction) (specVersion transactionVersion : Nat) :
    SubstrateTransaction :=
  { tx with SpecVersion := specVersion, TransactionVersion := transactionVersion }

/-- `tx.SubstrateTransaction.SetSpecVersionAndCallId` (src/unnamed/part_000
lines 60-64). -/
def SetSpecVersionAndCallId (tx : SubstrateTransaction) (specVersion transactionVersion : Nat) :
    SubstrateTransaction :=
  { tx with SpecVersion := specVersion, TransactionVersion := transactionVersion }

/-- `expand.MultiAddress` after `SetTypes(0)` plus the account id set from the
sender public key (src/client usage and src/unnamed/part_000 lines 206-209). -/
structure MultiAddress where
  addrType : Nat
  AccountId : List Nat
deriving DecidableEq, Repr, Inhabited

/-- `types.MultiSignature`: tagged union over the three supported signature
algorithms.  Ed25519/Sr25519 carry the fixed 64-byte form produced by
`types.NewSignature`; Ecdsa carries the raw bytes (`types.NewBytes`). -/
inductive MultiSignature where
  | Ed25519 (sig : List Nat)
  | Sr25519 (sig : List Nat)
  | Ecdsa (sig : List Nat)
deriving DecidableEq, Repr, Inhabited

/-- `expand.ExtrinsicSignatureV4` as assembled in src/unnamed/part_000 lines
221-227. -/
structure ExtrinsicSignatureV4 where
  Signer : MultiAddress
  Signature : MultiSignature
  Era : ExtrinsicEra
  Nonce : Nat
  Tip : Nat
deriving DecidableEq, Repr, Inhabited

/-- `expand.Extrinsic`: version byte, method call, and (once signed) the
signature block.  The `expand` package is part of this repository but is not
under src/; the shape here follows the spec's SignedExtrinsic data model
(version tag, signed bit, signer, multi-signature, era, nonce, tip, call). -/
structure Extrinsic where
  Version : Nat
  Method : Call
  Signature : Option ExtrinsicSignatureV4 := none
deriving DecidableEq, Repr, Inhabited

/-- `types.ExtrinsicBitSigned` (0x80). -/
def ExtrinsicBitSigned : Nat := 0x80

/-- `types.ExtrinsicVersion4` (4). -/
def ExtrinsicVersion4 : Nat := 4

/-- Modelled from the spec: `expand.NewExtrinsic` is code of this repository
that is not under src/.  The spec only constrains that the wrapped extrinsic
carries a format-version tag which is checked against v4 at build time, so the
tag is an explicit argument here and the call is wrapped unsigned. -/
def NewExtrinsic (version : Nat) (call : Call) : Extrinsic :=
  { Version := version, Method := call }

/-- Modelled from the spec: `Extrinsic.Type()` of the repository's `expand`
package (not under src/) extracts the version tag, masking off the signed bit:
`Version & 0x7f`, written as `% 2 ^ 7`. -/
def Extrinsic.extType (e : Extrinsic) : Nat :=
  e.Version % 2 ^ 7

/-- `types.SignatureOptions` (fields used by the tx package). -/
structure SignatureOptions where
  BlockHash : List Nat
  GenesisHash : List Nat
  Nonce : Nat
  SpecVersion : Nat
  Tip : Nat
  TransactionVersion : Nat
  Era : ExtrinsicEra := {}
deriving DecidableEq, Repr, Inhabited

/-- `types.ExtrinsicPayloadV4` (with the embedded V3 fields flattened), as
filled in src/unnamed/part_000 lines 113-124 and 172-183. -/
structure ExtrinsicPayloadV4 where
  Method : List Nat
  Era : ExtrinsicEra
  Nonce : Nat
  Tip : Nat
  SpecVersion : Nat
  GenesisHash : List Nat
  BlockHash : List Nat
  TransactionVersion : Nat
deriving DecidableEq, Repr, Inhabited

/-- Constant of the external go-substrate-crypto package selecting Ed25519. -/
def Ed25519Type : Nat := 0

/-- Constant of the external go-substrate-crypto package selecting Sr25519. -/
def Sr25519Type : Nat := 1

/-- Constant of the external go-substrate-crypto package selecting Ecdsa. -/
def EcdsaType : Nat := 2

/-- `types.NewSignature`: copies the signature bytes into a fixed 64-byte
array (truncating or zero-padding, as Go's `copy` into `[64]byte` does). -/
def newSignature (b : List Nat) : List Nat :=
  b.take 64 ++ List.replicate (64 - b.length) 0

/-- `strings.TrimPrefix(s, "0x")`, written over the character list so that it
evaluates by kernel reduction. -/
def trimPrefix0x (s : String) : String :=
  match s.data with
  | '0' :: 'x' :: rest => String.mk rest
  | _ => s

/-- The era normalisation both signing paths perform before building the
payload (src/unnamed/part_000 lines 109-112 and 168-171): a non-mortal era is
replaced by the explicit immortal era. -/
def normalizeEra (e : ExtrinsicEra) : ExtrinsicEra :=
  if e.IsMortalEra then e else { IsImmortalEra := true }

/-- The `ExtrinsicPayloadV4` literal both signing paths build from the encoded
method, the normalised era and the signature options (src/unnamed/part_000
lines 113-124 and 172-183). -/
def mkPayload (mb : List Nat) (era : ExtrinsicEra) (o : SignatureOptions) : ExtrinsicPayloadV4 :=
  { Method := mb, Era := era, Nonce := o.Nonce, Tip := o.Tip, SpecVersion := o.SpecVersion,
    GenesisHash := o.GenesisHash, BlockHash := o.BlockHash,
    TransactionVersion := o.TransactionVersion }

/-- Capabilities consumed by the tx package: the external SCALE codec
(`types.EncodeToBytes` on a call and on a payload), blake2b-256, stdlib hex
decoding, `types.MustHexDecodeString`, and the external signing primitive
`crypto.Sign(priv, data, signType)`. -/
structure TxCtx where
  encodeCall : Call → Except String (List Nat)
  encodePayload : ExtrinsicPayloadV4 → Except String (List Nat)
  blake2b256 : List Nat → List Nat
  hexDecode : String → Except String (List Nat)
  hexDecodeMust : String → List Nat
  sign : List Nat → List Nat → Nat → Except String (List Nat)

/-- `tx.signTx` (src/unnamed/part_000 lines 160-231).  Checks the extrinsic
version first, encodes the method, builds and encodes the payload, hashes the
payload iff it is longer than 256 bytes, hex-decodes the private key, signs,
wraps the signature in the algorithm-tagged variant and attaches the signature
block, setting the signed bit.  (The `utils.ZeroBytes` key wipe is a memory
effect with no value-level content and is not modelled.) -/
def signTx (ctx : TxCtx) (tx : SubstrateTransaction) (e : Extrinsic) (o : SignatureOptions)
    (privateKey : String) (signType : Nat) : Except String Extrinsic :=
  if e.extType ≠ ExtrinsicVersion4 then
    .error "unsupported extrinsic version"
  else
    match ctx.encodeCall e.Method with
    | .error err => .error err
    | .ok mb =>
      let era := normalizeEra o.Era
      match ctx.encodePayload (mkPayload mb era o) with
      | .error _ => .error "encode payload error"
      | .ok data₀ =>
        let data := if data₀.length > 256 then ctx.blake2b256 data₀ else data₀
        match ctx.hexDecode (trimPrefix0x privateKey) with
        | .error _ => .error "hex decode private key error"
        | .ok priv =>
          match ctx.sign priv data signType with
          | .error _ => .error "sign error"
          | .ok sig =>
            let ma : MultiAddress := { addrType := 0, AccountId := ctx.hexDecodeMust tx.SenderPubkey }
            let ss : Option MultiSignature :=
              if signType = Ed25519Type then some (.Ed25519 (newSignature sig))
              else if signType = Sr25519Type then some (.Sr25519 (newSignature sig))
              else if signType = EcdsaType then some (.Ecdsa sig)
              else none
            match ss with
            | none => .error "unsupport sign type"
            | some ss =>
              let extSig : ExtrinsicSignatureV4 :=
                { Signer := ma, Signature := ss, Era := era, Nonce := o.Nonce, Tip := o.Tip }
              .ok { e with Signature := some extSig,
                           Version := e.Version ||| ExtrinsicBitSigned }

/-- The `types.SignatureOptions` value both entry points build from the
transaction, with the era overridden when `getEra` yields a mortal era
(src/unnamed/part_000 lines 90-101 and 139-150). -/
def returnSignOptions (ctx : TxCtx) (tx : SubstrateTransaction) : SignatureOptions :=
  let o : SignatureOptions :=
    { BlockHash := ctx.hexDecodeMust tx.BlockHash,
      GenesisHash := ctx.hexDecodeMust tx.GenesisHash,
      Nonce := tx.Nonce, SpecVersion := tx.SpecVersion, Tip := tx.Tip,
      TransactionVersion := tx.TransactionVersion }
  match getEra tx.BlockNumber tx.EraPeriod with
  | some era => { o with Era := era }
  | none => o

/-- `tx.ReturnSign` (src/unnamed/part_000 lines 88-134): builds the extrinsic
and options, checks the version, encodes method and payload, hashes the payload
iff longer than 256 bytes, and returns the (unsigned) extrinsic, the options
and the ready-to-sign bytes.  `extVersion` is the version tag produced by
`expand.NewExtrinsic` (see `NewExtrinsic`). -/
def ReturnSign (ctx : TxCtx) (extVersion : Nat) (tx : SubstrateTransaction) :
    Except String (Extrinsic × SignatureOptions × List Nat) :=
  let ext := NewExtrinsic extVersion tx.call
  let o := returnSignOptions ctx tx
  if ext.extType ≠ ExtrinsicVersion4 then
    .error "unsupported extrinsic version"
  else
    match ctx.encodeCall ext.Method with
    | .error err => .error err
    | .ok mb =>
      let eras := normalizeEra o.Era
      match ctx.encodePayload (mkPayload mb eras o) with
      | .error _ => .error "encode payload error"
      | .ok data₀ =>
        let data := if data₀.length > 256 then ctx.blake2b256 data₀ else data₀
        .ok (ext, o, data)

/-! ## Block parser (`client.parseExtrinsicByDecode`, src/client/client.go
lines 191-342) -/

/-- Dynamically typed decoded parameter values (Go: `interface{}` holding the
JSON round-trip of the decoder output: strings, numbers, nested lists). -/
inductive JValue where
  | str (s : String)
  | num (n : Int)
  | list (xs : List JValue)
  | null

instance : Inhabited JValue := ⟨JValue.null⟩

/-- One decoded call parameter (`models.ExtrinsicParam`, fields used here). -/
structure ExtrinsicParam where
  Name : String
  Value : JValue
deriving Inhabited

/-- One argument of a batched sub-call (`models.UtilityParamsValue.CallArgs`
entries; the code reads `Name` and `ValueRaw`). -/
structure UtilityCallArg where
  Name : String
  ValueRaw : String
deriving DecidableEq, Repr, Inhabited

/-- One batched sub-call (`models.UtilityParamsValue`, fields used here). -/
structure UtilityParamsValue where
  CallModule : String
  CallFunction : String
  CallArgs : List UtilityCallArg
deriving DecidableEq, Repr, Inhabited

/-- `models.ExtrinsicDecodeResponse` (fields used by the parser). -/
structure ExtrinsicDecodeResponse where
  CallModule : String
  CallModuleFunction : String
  AccountId : String
  Era : String
  Signature : String
  Nonce : Int
  Length : Nat
  Params : List ExtrinsicParam
deriving Inhabited

/-- Outcome of decoding one raw extrinsic (hex decode, SCALE decode and the
JSON round-trip of src/client/client.go lines 218-239 collapsed into one
external step): a Go panic, an error return, or a decoded response. -/
inductive DecodeOutcome where
  | panicked (msg : String)
  | failed (msg : String)
  | ok (resp : ExtrinsicDecodeResponse)

/-- `parseBlockExtrinsicParams` (src/client/client.go lines 191-197); Go zero
values as defaults.  `from` and `to` are Lean keywords, hence the trailing
underscores. -/
structure ParseBlockExtrinsicParams where
  from_ : String := ""
  to_ : String := ""
  sig : String := ""
  era : String := ""
  txid : String := ""
  nonce : Int := 0
  extrinsicIdx : Nat := 0
  length : Nat := 0
  amount : String := ""
  Fee : String := ""
deriving DecidableEq, Repr, Inhabited

/-- One entry of the final transfer report (`models.ExtrinsicResponse`, fields
the parser and correlator write).  The Go field `Type` is a Lean keyword,
hence `TypeTag`. -/
structure ExtrinsicResponse where
  Signature : String := ""
  FromAddress : String := ""
  ToAddress : String := ""
  Nonce : Int := 0
  Era : String := ""
  Fee : String := ""
  ExtrinsicIndex : Nat := 0
  Amount : String := ""
  Txid : String := ""
  ExtrinsicLength : Nat := 0
  Status : String := ""
  TypeTag : String := ""
deriving DecidableEq, Repr, Inhabited

/-- `models.BlockResponse` (fields used here). -/
structure BlockResponse where
  Height : Int := 0
  ParentHash : String := ""
  BlockHash : String := ""
  Timestamp : Int := 0
  Extrinsic : List ExtrinsicResponse := []
deriving DecidableEq, Repr, Inhabited

/-- Capabilities consumed by the block parser: the collapsed per-extrinsic
decode step, the external ss58 address encoder (`ss58.EncodeByPubHex` with the
client's prefix applied), the fee RPC (`Client.GetPartialFee`), the JSON
re-marshalling of a dynamic "calls" value into typed sub-calls
(src/client/client.go lines 276-281), blake2b-256 and stdlib hex decoding
(for `createTxHash`, errors discarded by the source). -/
structure ParseCtx where
  decodeOne : String → DecodeOutcome
  ss58Encode : String → Except String String
  getPartialFee : String → String → Except String String
  parseUtilityValues : JValue → Except String (List UtilityParamsValue)
  blake2b256 : List Nat → List Nat
  hexDecodeLossy : String → List Nat

/-- `utils.Remove0X` / `utils.RemoveHex0x` (repository code not under src/;
the spec describes raw extrinsics as hex blobs with an optional `0x` prefix
that is stripped before decoding/hashing). -/
def remove0X (s : String) : String :=
  match s.data with
  | '0' :: 'x' :: rest => String.mk rest
  | _ => s

/-- One hex digit (lower case, as Go's `hex.EncodeToString`). -/
def hexDigitChar (n : Nat) : Char :=
  if n < 10 then Char.ofNat (48 + n) else Char.ofNat (87 + n)

/-- One byte as two lower-case hex digits. -/
def byteToHexStr (b : Nat) : String :=
  String.mk [hexDigitChar (b / 16 % 16), hexDigitChar (b % 16)]

/-- Go `hex.EncodeToString` over a byte list. -/
def hexEncodeStr (bs : List Nat) : String :=
  String.join (bs.map byteToHexStr)

/-- `Client.createTxHash` (src/client/client.go lines 451-455): blake2b-256
over the hex-decoded raw extrinsic, rendered as 0x-prefixed hex. -/
def createTxHash (ctx : ParseCtx) (extrinsic : String) : String :=
  "0x" ++ hexEncodeStr (ctx.blake2b256 (ctx.hexDecodeLossy (remove0X extrinsic)))

/-- A `(value, err)` Go pair whose error is discarded by the caller: the value
on success, the empty string on error. -/
def orEmpty : Except String String → String
  | .ok s => s
  | .error _ => ""

/-- Go type assertion `.(string)`: `none` models the panic on any other
dynamic type. -/
def assertString : JValue → Option String
  | .str s => some s
  | _ => none

/-- Go type assertion `.(float64)` as used for the timestamp: `none` models
the panic on any other dynamic type. -/
def assertNum : JValue → Option Int
  | .num n => some n
  | _ => none

/-- One step of the direct-transfer parameter loop (src/client/client.go lines
258-265): a `dest` parameter sets the recipient through ss58 (error
discarded), a `value` parameter sets the amount; both type-assert the dynamic
value to string (`none` = panic). -/
def applyTransferParam (ctx : ParseCtx) (bd : ParseBlockExtrinsicParams) (p : ExtrinsicParam) :
    Option ParseBlockExtrinsicParams :=
  match (if p.Name = "dest" then
          (assertString p.Value).map (fun s => { bd with to_ := orEmpty (ctx.ss58Encode s) })
         else some bd) with
  | none => none
  | some bd₁ =>
    if p.Name = "value" then
      (assertString p.Value).map (fun s => { bd₁ with amount := s })
    else some bd₁

/-- The direct-transfer parameter loop (src/client/client.go lines 258-265). -/
def foldTransferParams (ctx : ParseCtx) (bd : ParseBlockExtrinsicParams) :
    List ExtrinsicParam → Option ParseBlockExtrinsicParams
  | [] => some bd
  | p :: ps =>
    match applyTransferParam ctx bd p with
    | none => none
    | some bd₁ => foldTransferParams ctx bd₁ ps

/-- The timestamp parameter loop (src/client/client.go lines 242-246): each
parameter named `now` overwrites the timestamp; the boolean is `true` when a
type assertion panicked, in which case the returned value is the timestamp
collected up to that point. -/
def foldTimestampParams (ts : Int) : List ExtrinsicParam → Int × Bool
  | [] => (ts, false)
  | p :: ps =>
    if p.Name = "now" then
      match assertNum p.Value with
      | none => (ts, true)
      | some n => foldTimestampParams n ps
    else foldTimestampParams ts ps

/-- The candidate built for one `dest` argument of a batched Balances transfer
(src/client/client.go lines 289-298).  Neither `amount` nor `length` is set by
this path. -/
def batchCandidate (ctx : ParseCtx) (parentHash : String) (resp : ExtrinsicDecodeResponse)
    (i : Nat) (extrinsic : String) (arg : UtilityCallArg) : ParseBlockExtrinsicParams :=
  { from_ := orEmpty (ctx.ss58Encode resp.AccountId),
    era := resp.Era,
    sig := resp.Signature,
    nonce := resp.Nonce,
    extrinsicIdx := i,
    Fee := orEmpty (ctx.getPartialFee extrinsic parentHash),
    txid := createTxHash ctx extrinsic,
    to_ := orEmpty (ctx.ss58Encode arg.ValueRaw) }

/-- Candidates contributed by one batched sub-call (src/client/client.go lines
283-304): only Balances transfer / transfer_keep_alive sub-calls with a
non-empty argument list contribute, one candidate per argument named `dest`. -/
def candidatesOfUtilityValue (ctx : ParseCtx) (parentHash : String)
    (resp : ExtrinsicDecodeResponse) (i : Nat) (extrinsic : String)
    (v : UtilityParamsValue) : List ParseBlockExtrinsicParams :=
  if v.CallModule = "Balances" then
    if v.CallFunction = "transfer" ∨ v.CallFunction = "transfer_keep_alive" then
      if v.CallArgs.length > 0 then
        (v.CallArgs.filter (fun a => a.Name = "dest")).map
          (batchCandidate ctx parentHash resp i extrinsic)
      else []
    else []
  else []

/-- Candidates contributed by one parameter of a `Utility.batch` call
(src/client/client.go lines 271-309): only a parameter named `calls` whose
dynamic value is a list and whose JSON re-marshalling succeeds contributes. -/
def batchParamCandidates (ctx : ParseCtx) (parentHash : String)
    (resp : ExtrinsicDecodeResponse) (i : Nat) (extrinsic : String)
    (p : ExtrinsicParam) : List ParseBlockExtrinsicParams :=
  if p.Name = "calls" then
    match p.Value with
    | .list _ =>
      match ctx.parseUtilityValues p.Value with
      | .error _ => []
      | .ok values =>
        values.flatMap (candidatesOfUtilityValue ctx parentHash resp i extrinsic)
    | _ => []
  else []

/-- State threaded through the extrinsic loop: the accumulated candidates and
the block timestamp collected so far. -/
structure LoopState where
  params : List ParseBlockExtrinsicParams := []
  timestamp : Int := 0
deriving DecidableEq, Repr, Inhabited

/-- Result of a loop step: normal continuation, an early error return, or a
recovered panic together with the state at the moment of the panic. -/
inductive StepResult where
  | ok (st : LoopState)
  | err (msg : String)
  | panicked (st : LoopState)
deriving DecidableEq, Repr, Inhabited

/-- The body of the extrinsic loop for extrinsic `i` (src/client/client.go
lines 216-315): strip the 0x prefix, run the external decode chain, then
dispatch on the call module — Timestamp extrinsics update the timestamp,
direct Balances transfers contribute one candidate, Utility.batch calls
contribute one candidate per batched `dest` argument, all other modules are
skipped. -/
def processOne (ctx : ParseCtx) (parentHash : String) (i : Nat) (rawExtrinsic : String)
    (st : LoopState) : StepResult :=
  let extrinsic := remove0X rawExtrinsic
  match ctx.decodeOne extrinsic with
  | .panicked _ => .panicked st
  | .failed msg => .err msg
  | .ok resp =>
    if resp.CallModule = "Timestamp" then
      match foldTimestampParams st.timestamp resp.Params with
      | (ts, true) => .panicked { st with timestamp := ts }
      | (ts, false) => .ok { st with timestamp := ts }
    else if resp.CallModule = "Balances" then
      if resp.CallModuleFunction = "transfer" ∨
         resp.CallModuleFunction = "transfer_keep_alive" then
        let bd₀ : ParseBlockExtrinsicParams :=
          { from_ := orEmpty (ctx.ss58Encode resp.AccountId),
            era := resp.Era,
            sig := resp.Signature,
            nonce := resp.Nonce,
            extrinsicIdx := i,
            Fee := orEmpty (ctx.getPartialFee extrinsic parentHash),
            txid := createTxHash ctx extrinsic,
            length := resp.Length }
        match foldTransferParams ctx bd₀ resp.Params with
        | none => .panicked st
        | some bd => .ok { st with params := st.params ++ [bd] }
      else .ok st
    else if resp.CallModule = "Utility" then
      if resp.CallModuleFunction = "batch" then
        .ok { st with params :=
                st.params ++ resp.Params.flatMap (batchParamCandidates ctx parentHash resp i extrinsic) }
      else .ok st
    else .ok st

/-- The extrinsic loop (src/client/client.go lines 216-315), indexed from
`i`. -/
def processList (ctx : ParseCtx) (parentHash : String) :
    Nat → List String → LoopState → StepResult
  | _, [], st => .ok st
  | i, ext :: rest, st =>
    match processOne ctx parentHash i ext st with
    | .ok st₁ => processList ctx parentHash (i + 1) rest st₁
    | .err msg => .err msg
    | .panicked st₁ => .panicked st₁

/-- Conversion of an accumulated candidate into a report entry
(src/client/client.go lines 324-338). -/
def toExtrinsicResponse (p : ParseBlockExtrinsicParams) : ExtrinsicResponse :=
  { Signature := p.sig, FromAddress := p.from_, ToAddress := p.to_, Nonce := p.nonce,
    Era := p.era, Fee := p.Fee, ExtrinsicIndex := p.extrinsicIdx, Amount := p.amount,
    Txid := p.txid, ExtrinsicLength := p.length }

/-- `Client.parseExtrinsicByDecode` (src/client/client.go lines 202-342).  A
panic anywhere in the loop is recovered: the block keeps the timestamp
collected so far, its transfer list becomes empty, and no error is returned
(the Go function has unnamed results, so the recovered call returns `nil`).
An ordinary error aborts the call.  Otherwise the final timestamp is stored
and the candidates become the report entries. -/
def parseExtrinsicByDecode (ctx : ParseCtx) (extrinsics : List String)
    (blockResp : BlockResponse) : Except String BlockResponse :=
  match processList ctx blockResp.ParentHash 0 extrinsics {} with
  | .err msg => .error msg
  | .panicked st => .ok { blockResp with Timestamp := st.timestamp, Extrinsic := [] }
  | .ok st =>
    if st.params.length = 0 then
      .ok { blockResp with Timestamp := st.timestamp, Extrinsic := [] }
    else
      .ok { blockResp with Timestamp := st.timestamp,
                           Extrinsic := st.params.map toExtrinsicResponse }

/-! ## Event correlator (`client.parseExtrinsicByStorage`, src/client/client.go
lines 347-446) -/

/-- The phase of a decoded event record: whether it is attached to an
extrinsic, and to which index. -/
structure EventPhase where
  IsApplyExtrinsic : Bool
  AsApplyExtrinsic : Nat
deriving DecidableEq, Repr, Inhabited

/-- A decoded `Balances.Transfer` event (`ier.GetBalancesTransfer()`): phase,
from/to public-key bytes and the transferred amount (`types.U128`). -/
structure EventBalancesTransfer where
  Phase : EventPhase
  From : List Nat
  To : List Nat
  Value : Nat
deriving DecidableEq, Repr, Inhabited

/-- A decoded `System.ExtrinsicFailed` event (`ier.GetSystemExtrinsicFailed()`):
only its phase is consulted. -/
structure EventExtrinsicFailed where
  Phase : EventPhase
deriving DecidableEq, Repr, Inhabited

/-- `models.EventResult` (src/client/client.go lines 401-419). -/
structure EventResult where
  ExtrinsicIdx : Nat
  From : String
  To : String
  Amount : String
deriving DecidableEq, Repr, Inhabited

/-- The event-result list built from the balance-transfer events
(src/client/client.go lines 396-420): events not attached to an extrinsic are
skipped, as is any event whose from- or to-address fails ss58 encoding; the
amount is the decimal rendering of the event value (Go `big.Int.String`). -/
def buildEventResults (ss58Encode : String → Except String String) :
    List EventBalancesTransfer → List EventResult
  | [] => []
  | ebt :: rest =>
    if ebt.Phase.IsApplyExtrinsic then
      match ss58Encode (hexEncodeStr ebt.From) with
      | .error _ => buildEventResults ss58Encode rest
      | .ok f =>
        match ss58Encode (hexEncodeStr ebt.To) with
        | .error _ => buildEventResults ss58Encode rest
        | .ok t =>
          { ExtrinsicIdx := ebt.Phase.AsApplyExtrinsic, From := f, To := t,
            Amount := toString ebt.Value } :: buildEventResults ss58Encode rest
    else buildEventResults ss58Encode rest

/-- The failure set (src/client/client.go lines 388-394): the extrinsic
indices of all `ExtrinsicFailed` events attached to an extrinsic (Go: a
`map[int]bool`; membership here is `List.contains`). -/
def buildFailedMap (failedEvents : List EventExtrinsicFailed) : List Nat :=
  (failedEvents.filter (fun f => f.Phase.IsApplyExtrinsic)).map
    (fun f => f.Phase.AsApplyExtrinsic)

/-- One step of the per-entry event loop (src/client/client.go lines 426-441):
when the event result shares the entry's extrinsic index and recipient
address, the status is resolved against the failure set and the amount and
recipient are overwritten with the event's values. -/
def corrStep (failedMap : List Nat) (e : ExtrinsicResponse) (r : EventResult) :
    ExtrinsicResponse :=
  if e.ExtrinsicIndex = r.ExtrinsicIdx then
    if e.ToAddress = r.To then
      { e with Status := if failedMap.contains e.ExtrinsicIndex then "fail" else "success",
               TypeTag := "transfer",
               Amount := r.Amount,
               ToAddress := r.To }
    else e
  else e

/-- Status resolution for one report entry (src/client/client.go lines
422-443): the entry is first marked `fail` / `transfer`, then every event
result is folded over it. -/
def correlateEntry (failedMap : List Nat) (res : List EventResult)
    (e : ExtrinsicResponse) : ExtrinsicResponse :=
  let e₁ := { e with Status := "fail", TypeTag := "transfer" }
  if res.length > 0 then res.foldl (corrStep failedMap) e₁ else e₁

/-- `Client.parseExtrinsicByStorage` (src/client/client.go lines 347-446),
given the decoded event log.  The storage-key construction, the RPC fetch and
`expand.DecodeEventRecords` are external steps whose decoded output
(`transfers`, `failedEvents`) is consumed here; their error paths abort before
any entry is touched and are outside this function.  With no report entries
the block is left untouched; the failure set and event results are only built
when at least one balance-transfer event exists (the Go `if` at line 386). -/
def parseExtrinsicByStorage (ss58Encode : String → Except String String)
    (transfers : List EventBalancesTransfer) (failedEvents : List EventExtrinsicFailed)
    (blockResp : BlockResponse) : BlockResponse :=
  if blockResp.Extrinsic.length ≤ 0 then
    blockResp
  else
    let failedMap := if transfers.length > 0 then buildFailedMap failedEvents else []
    let res := if transfers.length > 0 then buildEventResults ss58Encode transfers else []
    { blockResp with Extrinsic := blockResp.Extrinsic.map (correlateEntry failedMap res) }

/-- The block-level pipeline for a block with extrinsics
(`Client.GetBlockByHash`, src/client/client.go lines 178-187): decode the
extrinsics, then resolve statuses against the event log. -/
def buildTransferReport (ctx : ParseCtx) (ss58Encode : String → Except String String)
    (transfers : List EventBalancesTransfer) (failedEvents : List EventExtrinsicFailed)
    (extrinsics : List String) (blockResp : BlockResponse) : Except String BlockResponse :=
  match parseExtrinsicByDecode ctx extrinsics blockResp with
  | .error msg => .error msg
  | .ok br => .ok (parseExtrinsicByStorage ss58Encode transfers failedEvents br)

/-! ## Observers and concrete sample data used by the witnesses -/

/-- The raw signature bytes attached to a signed extrinsic, whichever
algorithm variant carries them. -/
def signedBytes (e : Extrinsic) : Option (List Nat) :=
  match e.Signature with
  | none => none
  | some sg =>
    match sg.Signature with
    | .Ed25519 s => some s
    | .Sr25519 s => some s
    | .Ecdsa s => some s

/-- Sample signing capabilities: the codec is the identity on the method
bytes, the signing primitive echoes the data it is asked to sign (so the
attached signature reveals exactly what was signed). -/
def demoTxCtx : TxCtx :=
  { encodeCall := fun c => .ok c,
    encodePayload := fun pl => .ok pl.Method,
    blake2b256 := fun _ => [9, 9],
    hexDecode := fun _ => .ok [1],
    hexDecodeMust := fun _ => [2],
    sign := fun _ d _ => .ok d }

/-- Sample transaction whose call encodes to 257 bytes. -/
def demoTx : SubstrateTransaction :=
  { SenderPubkey := "ab", Nonce := 0, BlockHash := "", GenesisHash := "",
    SpecVersion := 0, TransactionVersion := 0, Tip := 0, BlockNumber := 0,
    EraPeriod := 0, call := List.replicate 257 1 }

/-- Sample unsigned v4 extrinsic whose method encodes to exactly 256 bytes. -/
def demoExt : Extrinsic :=
  { Version := 4, Method := List.replicate 256 0 }

/-- Sample signature options (immortal era). -/
def demoOptions : SignatureOptions :=
  { BlockHash := [], GenesisHash := [], Nonce := 0, SpecVersion := 0, Tip := 0,
    TransactionVersion := 0 }

/-- Sample ss58 encoder: total, prefixes `A`. -/
def demoSS58 : String → Except String String :=
  fun s => .ok ("A" ++ s)

/-- Sample decoded direct Balances.transfer response. -/
def demoTransferResp : ExtrinsicDecodeResponse :=
  { CallModule := "Balances", CallModuleFunction := "transfer", AccountId := "aa",
    Era := "00", Signature := "sg", Nonce := 7, Length := 3,
    Params := [⟨"dest", JValue.str "dd"⟩, ⟨"value", JValue.str "55"⟩] }

/-- Sample batched sub-call: a Balances.transfer with `dest`/`value`
arguments. -/
def demoSubcall₁ : UtilityParamsValue :=
  { CallModule := "Balances", CallFunction := "transfer",
    CallArgs := [⟨"dest", "d1"⟩, ⟨"value", "5"⟩] }

/-- Second sample batched sub-call. -/
def demoSubcall₂ : UtilityParamsValue :=
  { CallModule := "Balances", CallFunction := "transfer",
    CallArgs := [⟨"dest", "d2"⟩, ⟨"value", "6"⟩] }

/-- Sample decoded Utility.batch response carrying one `calls` parameter. -/
def demoBatchResp : ExtrinsicDecodeResponse :=
  { CallModule := "Utility", CallModuleFunction := "batch", AccountId := "aa",
    Era := "00", Signature := "sg", Nonce := 7, Length := 3,
    Params := [⟨"calls", JValue.list [JValue.null]⟩] }

/-- Sample decoded Timestamp.set response. -/
def demoTimestampResp : ExtrinsicDecodeResponse :=
  { CallModule := "Timestamp", CallModuleFunction := "set", AccountId := "",
    Era := "", Signature := "", Nonce := 0, Length := 0,
    Params := [⟨"now", JValue.num 1234⟩] }

/-- Sample parser capabilities: the raw strings `b1`, `t1`, `ts` decode to the
batch, direct-transfer and timestamp responses above, `boom` panics inside
decoding, anything else fails; the `calls` re-marshalling yields the two
sample sub-calls. -/
def demoParseCtx : ParseCtx :=
  { decodeOne := fun s =>
      if s = "b1" then .ok demoBatchResp
      else if s = "t1" then .ok demoTransferResp
      else if s = "ts" then .ok demoTimestampResp
      else if s = "boom" then .panicked "bad input"
      else .failed "unknown",
    ss58Encode := demoSS58,
    getPartialFee := fun _ _ => .ok "10",
    parseUtilityValues := fun v =>
      match v with
      | .list [.null] => .ok [demoSubcall₁, demoSubcall₂]
      | _ => .error "bad",
    blake2b256 := fun _ => [1, 2],
    hexDecodeLossy := fun _ => [] }

/-- Sample block response before parsing. -/
def demoBlock : BlockResponse :=
  { Height := 9, ParentHash := "ph", BlockHash := "bh" }

/-- Sample report entry awaiting status resolution (as the decode stage leaves
it: recipient `A01` at extrinsic index 0). -/
def demoEntry : ExtrinsicResponse :=
  { Signature := "sg", FromAddress := "Aaa", ToAddress := "A01", Nonce := 7,
    Era := "00", Fee := "10", ExtrinsicIndex := 0, Amount := "orig",
    Txid := "0x0102", ExtrinsicLength := 3 }

/-- Sample block response carrying `demoEntry`. -/
def demoReportBlock : BlockResponse :=
  { Height := 9, ParentHash := "ph", BlockHash := "bh", Extrinsic := [demoEntry] }

/-- Sample balance-transfer event attached to extrinsic 0, recipient pubkey
byte `0x01` (so its resolved address is `A01`), amount 42. -/
def demoEventTransfer : EventBalancesTransfer :=
  { Phase := { IsApplyExtrinsic := true, AsApplyExtrinsic := 0 },
    From := [0], To := [1], Value := 42 }

/-! ## Helper lemmas -/

/-- Recombining a low byte with a shifted high part is plain addition: the two
operands occupy disjoint bit ranges. -/
theorem lor_shift (i : Nat) : ∀ x y : Nat, x < 2 ^ i → x ||| (y <<< i) = x + y * 2 ^ i := by
  induction i with
  | zero =>
    intro x y hx
    interval_cases x
    simp [Nat.shiftLeft_eq]
  | succ i ih =>
    intro x y hx
    have hpow : 2 ^ (i + 1) = 2 * 2 ^ i := by ring
    have hx2 : x / 2 < 2 ^ i := by omega
    have hdecomp : Nat.bit (decide (x % 2 = 1)) (x >>> 1) = x :=
      Nat.bit_decide_mod_two_eq_one_shiftRight_one x
    have hshift : y <<< (i + 1) = Nat.bit false (y <<< i) := by
      simp [Nat.bit_val, Nat.shiftLeft_eq, Nat.pow_succ]
      ring
    have hmod : (decide (x % 2 = 1)).toNat = x % 2 := by
      rcases Nat.mod_two_eq_zero_or_one x with h | h <;> simp [h]
    calc x ||| (y <<< (i + 1))
        = Nat.bit (decide (x % 2 = 1)) (x >>> 1) ||| Nat.bit false (y <<< i) := by
          rw [hdecomp, hshift]
      _ = Nat.bit (decide (x % 2 = 1) || false) ((x >>> 1) ||| (y <<< i)) := Nat.lor_bit ..
      _ = Nat.bit (decide (x % 2 = 1)) ((x / 2) ||| (y <<< i)) := by
          rw [Bool.or_false, Nat.shiftRight_one]
      _ = Nat.bit (decide (x % 2 = 1)) (x / 2 + y * 2 ^ i) := by rw [ih _ y hx2]
      _ = 2 * (x / 2 + y * 2 ^ i) + (decide (x % 2 = 1)).toNat := Nat.bit_val ..
      _ = x + y * 2 ^ (i + 1) := by
          rw [hmod, hpow]
          have h2 : y * (2 * 2 ^ i) = 2 * (y * 2 ^ i) := by ring
          omega

/-- The encoded era value in closed form. -/
theorem getEraEncoded_eq (b p : Nat) :
    getEraEncoded b p = (5 + b % p * 2 ^ 4) % 2 ^ 64 := by
  unfold getEraEncoded
  norm_num

/-! ## Claim theorems -/

/-- C9: the two builder methods `SetSpecAndTxVersion` and
`SetSpecVersionAndCallId` are functionally identical — for every transaction
state and every pair of version arguments they produce the same state. -/
theorem setSpecVersion_methods_identical (tx : SubstrateTransaction)
    (specVersion transactionVersion : Nat) :
    SetSpecAndTxVersion tx specVersion transactionVersion =
      SetSpecVersionAndCallId tx specVersion transactionVersion := rfl

/-- C10 counterexample: at blockNumber 2^61, eraPeriod 2^63 the phase is 2^61,
`phase << 4` wraps around 2^64 in Go's uint64 arithmetic, and the encoded
value is 5, not the claimed 5 + (phase << 4). -/
theorem getEraEncoded_formula_cx :
    getEraEncoded (2 ^ 61) (2 ^ 63) = 5 ∧ (5 : Nat) ≠ 5 + 2 ^ 61 % 2 ^ 63 * 2 ^ 4 := by
  constructor
  · decide
  · intro h
    have h61 : 2 ^ 61 % 2 ^ 63 = (2305843009213693952 : Nat) := by decide
    rw [h61] at h
    omega

/-- C10 (amended): for every blockNumber > 0 and eraPeriod > 0 the mortal
era's encoded value before the byte split equals
`(5 + ((blockNumber mod eraPeriod) << 4)) mod 2^64` — the class nibble is the
constant 5 (the clamp-to-minimum-1 branch never takes effect) and the period
influences the result only through the phase; whenever the phase is below
2^60 the uint64 reduction is trivial and the original unreduced formula
`5 + (phase << 4)` holds as well. -/
theorem getEraEncoded_formula (b p : Nat) (hb : 0 < b) (hp : 0 < p) :
    getEraEncoded b p = (5 + b % p * 2 ^ 4) % 2 ^ 64 ∧
    (b % p < 2 ^ 60 → getEraEncoded b p = 5 + b % p * 2 ^ 4) := by
  refine ⟨getEraEncoded_eq b p, fun hsmall => ?_⟩
  rw [getEraEncoded_eq b p]
  have h64 : (2 : Nat) ^ 64 = 2 ^ 60 * 2 ^ 4 := by norm_num
  have hlt : 5 + b % p * 2 ^ 4 < 2 ^ 64 := by
    rw [h64]
    have := Nat.mul_lt_mul_of_lt_of_le hsmall (Nat.le_refl (2 ^ 4)) (by norm_num)
    omega
  exact Nat.mod_eq_of_lt hlt

/-- C10 amended witness: blockNumber 7, eraPeriod 5 (phase 2). -/
theorem getEraEncoded_formula_witness :
    getEraEncoded 7 5 = (5 + 7 % 5 * 2 ^ 4) % 2 ^ 64 ∧
    (7 % 5 < 2 ^ 60 → getEraEncoded 7 5 = 5 + 7 % 5 * 2 ^ 4) :=
  getEraEncoded_formula 7 5 (by decide) (by decide)

/-- C2 counterexample: at blockNumber 4096, eraPeriod 8192 the phase is 4096,
the encoded value 5 + (4096 << 4) = 65541 overflows 16 bits, the two bytes are
(0, 5), and their 16-bit reconstruction is 5 — not the claimed
class_nibble + (phase << 4). -/
theorem getEra_recombine_cx :
    (getEra 4096 8192).map recombineEra = some 5 ∧
    (5 : Nat) ≠ 5 + 4096 % 8192 * 2 ^ 4 := by
  constructor
  · decide
  · decide

/-- C2 (amended): the era is immortal exactly when blockNumber = 0 or
eraPeriod = 0; for non-zero uint64 inputs the mortal era's two bytes satisfy
`(second as u16) | ((first as u16) << 8) = (class_nibble + (phase << 4)) mod 2^16`
with phase = blockNumber mod eraPeriod and class nibble
clamp(5, 1, 15) = 5 — i.e. the documented formula holds only up to the 16-bit
truncation the byte split performs. -/
theorem getEra_encoding (b p : Nat) (hb : b < 2 ^ 64) (hp : p < 2 ^ 64) :
    (getEra b p = none ↔ b = 0 ∨ p = 0) ∧
    ∀ e, getEra b p = some e →
      e.IsMortalEra = true ∧ recombineEra e = (5 + b % p * 2 ^ 4) % 2 ^ 16 := by
  constructor
  · by_cases h : b = 0 ∨ p = 0 <;> simp [getEra, h]
  · intro e he
    by_cases h : b = 0 ∨ p = 0
    · simp [getEra, h] at he
    · unfold getEra at he
      rw [if_neg h] at he
      have hx := Option.some.inj he
      subst hx
      refine ⟨rfl, ?_⟩
      have hs : getEraEncoded b p % 2 ^ 8 < 2 ^ 8 :=
        Nat.mod_lt _ (by norm_num)
      simp only [recombineEra]
      rw [lor_shift 8 _ _ hs]
      have hsplit : getEraEncoded b p % (2 ^ 8 * 2 ^ 8) =
          getEraEncoded b p % 2 ^ 8 + 2 ^ 8 * (getEraEncoded b p / 2 ^ 8 % 2 ^ 8) :=
        Nat.mod_mul
      have h16 : (2 : Nat) ^ 8 * 2 ^ 8 = 2 ^ 16 := by norm_num
      rw [h16] at hsplit
      have hmod16 : getEraEncoded b p % 2 ^ 16 = (5 + b % p * 2 ^ 4) % 2 ^ 16 := by
        rw [getEraEncoded_eq b p]
        exact Nat.mod_mod_of_dvd _ (by norm_num)
      omega

/-- C2 amended witness: blockNumber 7, eraPeriod 5 gives the mortal era with
bytes (0, 37) and 16-bit reconstruction 37 = 5 + (2 << 4). -/
theorem getEra_encoding_witness :
    (getEra 7 5 = none ↔ (7 : Nat) = 0 ∨ (5 : Nat) = 0) ∧
    ∀ e, getEra 7 5 = some e →
      e.IsMortalEra = true ∧ recombineEra e = (5 + 7 % 5 * 2 ^ 4) % 2 ^ 16 :=
  getEra_encoding 7 5 (by decide) (by decide)

/-- C7: whenever the attached extrinsic is not format version v4, both the
sign path (`signTx`) and the payload-derivation path (`ReturnSign`) fail with
the version-mismatch error — for every signing/encoding capability, so no
signing step can have been attempted. -/
theorem version_mismatch_before_signing (ctx : TxCtx) (tx : SubstrateTransaction)
    (e : Extrinsic) (o : SignatureOptions) (pk : String) (signType v : Nat)
    (h1 : e.extType ≠ ExtrinsicVersion4)
    (h2 : (NewExtrinsic v tx.call).extType ≠ ExtrinsicVersion4) :
    signTx ctx tx e o pk signType = .error "unsupported extrinsic version" ∧
    ReturnSign ctx v tx = .error "unsupported extrinsic version" := by
  constructor
  · unfold signTx
    rw [if_pos h1]
  · unfold ReturnSign
    simp only [if_pos h2]

/-- C7 witness: an extrinsic with version byte 5 is rejected by both paths. -/
theorem version_mismatch_before_signing_witness :
    signTx demoTxCtx demoTx { Version := 5, Method := [] } demoOptions "" 0 =
      .error "unsupported extrinsic version" ∧
    ReturnSign demoTxCtx 5 demoTx = .error "unsupported extrinsic version" :=
  version_mismatch_before_signing demoTxCtx demoTx { Version := 5, Method := [] }
    demoOptions "" 0 5 (by decide) (by decide)

/-- C3: in both the sign path and the payload-derivation path, a serialized
payload of at most 256 bytes is signed exactly as serialized, and a payload of
more than 256 bytes is first replaced by its blake2b-256 hash; the boundary is
exactly 256.  The signing capability is instantiated to echo its input, so the
attached Ecdsa signature reveals exactly the bytes handed to the signer. -/
theorem payload_hash_boundary (ctx : TxCtx) (tx : SubstrateTransaction)
    (e : Extrinsic) (o : SignatureOptions) (pk : String) (v : Nat)
    (mb mb₁ data₀ data₁ priv : List Nat)
    (h1 : e.extType = ExtrinsicVersion4)
    (h2 : ctx.encodeCall e.Method = .ok mb)
    (h3 : ctx.encodePayload (mkPayload mb (normalizeEra o.Era) o) = .ok data₀)
    (h4 : ctx.hexDecode (trimPrefix0x pk) = .ok priv)
    (h5 : ctx.sign = fun _ d _ => .ok d)
    (h6 : (NewExtrinsic v tx.call).extType = ExtrinsicVersion4)
    (h7 : ctx.encodeCall tx.call = .ok mb₁)
    (h8 : ctx.encodePayload (mkPayload mb₁ (normalizeEra (returnSignOptions ctx tx).Era)
            (returnSignOptions ctx tx)) = .ok data₁) :
    ((data₀.length ≤ 256 →
        (signTx ctx tx e o pk EcdsaType).toOption.bind signedBytes = some data₀) ∧
     (256 < data₀.length →
        (signTx ctx tx e o pk EcdsaType).toOption.bind signedBytes =
          some (ctx.blake2b256 data₀))) ∧
    ((data₁.length ≤ 256 →
        (ReturnSign ctx v tx).toOption.map (fun r => r.2.2) = some data₁) ∧
     (256 < data₁.length →
        (ReturnSign ctx v tx).toOption.map (fun r => r.2.2) =
          some (ctx.blake2b256 data₁))) := by
  constructor
  · have hstep : signTx ctx tx e o pk EcdsaType =
        .ok { e with
          Signature := some
            { Signer := { addrType := 0, AccountId := ctx.hexDecodeMust tx.SenderPubkey },
              Signature := .Ecdsa (if data₀.length > 256 then ctx.blake2b256 data₀ else data₀),
              Era := normalizeEra o.Era, Nonce := o.Nonce, Tip := o.Tip },
          Version := e.Version ||| ExtrinsicBitSigned } := by
      unfold signTx
      rw [if_neg (not_not_intro h1), h2]
      simp only [h3, h5, h4, EcdsaType, Ed25519Type, Sr25519Type]
      norm_num
    constructor
    · intro hlen
      rw [hstep]
      simp only [Except.toOption, Option.bind, signedBytes]
      rw [if_neg (by omega)]
    · intro hlen
      rw [hstep]
      simp only [Except.toOption, Option.bind, signedBytes]
      rw [if_pos (by omega)]
  · have hstep : ReturnSign ctx v tx =
        .ok (NewExtrinsic v tx.call, returnSignOptions ctx tx,
          if data₁.length > 256 then ctx.blake2b256 data₁ else data₁) := by
      unfold ReturnSign
      rw [if_neg (not_not_intro h6)]
      simp only [NewExtrinsic] at h7 ⊢
      rw [h7]
      simp only [h8]
    constructor
    · intro hlen
      rw [hstep]
      simp only [Except.toOption, Option.map]
      rw [if_neg (by omega)]
    · intro hlen
      rw [hstep]
      simp only [Except.toOption, Option.map]
      rw [if_pos (by omega)]

/-- C3 witness: with the sample capabilities, a 256-byte payload (sign path)
is signed as-is and a 257-byte payload (derivation path) is hashed first. -/
theorem payload_hash_boundary_witness :
    (((List.replicate 256 (0 : Nat)).length ≤ 256 →
        (signTx demoTxCtx demoTx demoExt demoOptions "" EcdsaType).toOption.bind signedBytes =
          some (List.replicate 256 0)) ∧
     (256 < (List.replicate 256 (0 : Nat)).length →
        (signTx demoTxCtx demoTx demoExt demoOptions "" EcdsaType).toOption.bind signedBytes =
          some (demoTxCtx.blake2b256 (List.replicate 256 0)))) ∧
    (((List.replicate 257 (1 : Nat)).length ≤ 256 →
        (ReturnSign demoTxCtx 4 demoTx).toOption.map (fun r => r.2.2) =
          some (List.replicate 257 1)) ∧
     (256 < (List.replicate 257 (1 : Nat)).length →
        (ReturnSign demoTxCtx 4 demoTx).toOption.map (fun r => r.2.2) =
          some (demoTxCtx.blake2b256 (List.replicate 257 1)))) :=
  payload_hash_boundary demoTxCtx demoTx demoExt demoOptions "" 4
    (List.replicate 256 0) (List.replicate 257 1) (List.replicate 256 0)
    (List.replicate 257 1) [1] rfl rfl rfl rfl rfl rfl rfl rfl

/-- Splitting the extrinsic loop over an append. -/
theorem processList_append (ctx : ParseCtx) (ph : String) (as bs : List String) :
    ∀ (i : Nat) (st : LoopState), processList ctx ph i (as ++ bs) st =
      match processList ctx ph i as st with
      | .ok st₁ => processList ctx ph (i + as.length) bs st₁
      | .err m => .err m
      | .panicked st₁ => .panicked st₁ := by
  induction as with
  | nil =>
    intro i st
    simp [processList]
  | cons a as ih =>
    intro i st
    simp only [List.cons_append, processList]
    cases processOne ctx ph i a st with
    | ok st₁ =>
      have harith : i + 1 + as.length = i + (as.length + 1) := by omega
      simp only [List.append_eq, ih, List.length_cons, harith]
    | err m => rfl
    | panicked st₁ => rfl

/-- One step of the direct-transfer parameter loop never changes the extrinsic
index of the candidate under construction. -/
theorem applyTransferParam_idx (ctx : ParseCtx) (bd bd₁ : ParseBlockExtrinsicParams)
    (p : ExtrinsicParam) (h : applyTransferParam ctx bd p = some bd₁) :
    bd₁.extrinsicIdx = bd.extrinsicIdx := by
  unfold applyTransferParam at h
  by_cases hd : p.Name = "dest"
  · cases hv : assertString p.Value with
    | none => simp [hd, hv] at h
    | some s =>
      simp only [hd, hv, Option.map, String.reduceEq, if_true, if_false] at h
      cases h
      rfl
  · by_cases hval : p.Name = "value"
    · cases hv : assertString p.Value with
      | none => simp [hd, hval, hv] at h
      | some s =>
        simp only [hd, hval, hv, Option.map, if_true, if_false, if_neg] at h
        cases h
        rfl
    · simp only [hd, hval, if_false, if_neg] at h
      cases h
      rfl

/-- The direct-transfer parameter loop never changes the extrinsic index. -/
theorem foldTransferParams_idx (ctx : ParseCtx) :
    ∀ (ps : List ExtrinsicParam) (bd bd₁ : ParseBlockExtrinsicParams),
      foldTransferParams ctx bd ps = some bd₁ → bd₁.extrinsicIdx = bd.extrinsicIdx := by
  intro ps
  induction ps with
  | nil =>
    intro bd bd₁ h
    cases h
    rfl
  | cons p ps ih =>
    intro bd bd₁ h
    unfold foldTransferParams at h
    cases hstep : applyTransferParam ctx bd p with
    | none => rw [hstep] at h; simp at h
    | some bd₂ =>
      rw [hstep] at h
      have h₂ := ih bd₂ bd₁ h
      rw [h₂, applyTransferParam_idx ctx bd bd₂ p hstep]

/-- Every candidate produced by the batch path carries the enclosing
extrinsic's index, the enclosing extrinsic's signature, nonce and txid, an
empty amount and a zero length. -/
theorem batchParamCandidates_mem (ctx : ParseCtx) (ph : String)
    (resp : ExtrinsicDecodeResponse) (i : Nat) (ext : String) (p : ExtrinsicParam)
    (c : ParseBlockExtrinsicParams) (h : c ∈ batchParamCandidates ctx ph resp i ext p) :
    c.extrinsicIdx = i ∧ c.amount = "" ∧ c.length = 0 ∧
    c.sig = resp.Signature ∧ c.nonce = resp.Nonce ∧ c.txid = createTxHash ctx ext := by
  unfold batchParamCandidates at h
  split at h
  · split at h
    · split at h
      · simp at h
      · rename_i values _
        rw [List.mem_flatMap] at h
        obtain ⟨v, _, hv⟩ := h
        unfold candidatesOfUtilityValue at hv
        split at hv
        · split at hv
          · split at hv
            · rw [List.mem_map] at hv
              obtain ⟨arg, _, harg⟩ := hv
              subst harg
              exact ⟨rfl, rfl, rfl, rfl, rfl, rfl⟩
            · simp at hv
          · simp at hv
        · simp at hv
    · simp at h
  · simp at h

/-- A successful loop step appends candidates carrying exactly the processed
extrinsic's index. -/
theorem processOne_ok_params (ctx : ParseCtx) (ph : String) (i : Nat) (ext : String)
    (st st₁ : LoopState) (h : processOne ctx ph i ext st = .ok st₁) :
    ∃ new, st₁.params = st.params ++ new ∧ ∀ c ∈ new, c.extrinsicIdx = i := by
  simp only [processOne] at h
  cases hdec : ctx.decodeOne (remove0X ext) with
  | panicked m => rw [hdec] at h; simp at h
  | failed m => rw [hdec] at h; simp at h
  | ok resp =>
    rw [hdec] at h
    by_cases hts : resp.CallModule = "Timestamp"
    · simp only [hts, String.reduceEq, if_true, if_false, reduceIte] at h
      cases hfold : foldTimestampParams st.timestamp resp.Params with
      | mk ts panicked =>
        rw [hfold] at h
        cases panicked with
        | true => simp at h
        | false =>
          simp only [] at h
          cases h
          exact ⟨[], (List.append_nil _).symm, by intro c hc; simp at hc⟩
    · by_cases hbal : resp.CallModule = "Balances"
      · simp only [hts, hbal, if_true, if_false, reduceIte] at h
        by_cases hfn : resp.CallModuleFunction = "transfer" ∨
            resp.CallModuleFunction = "transfer_keep_alive"
        · rw [if_pos hfn] at h
          cases hfold : foldTransferParams ctx
              { from_ := orEmpty (ctx.ss58Encode resp.AccountId), era := resp.Era,
                sig := resp.Signature, nonce := resp.Nonce, extrinsicIdx := i,
                Fee := orEmpty (ctx.getPartialFee (remove0X ext) ph),
                txid := createTxHash ctx (remove0X ext), length := resp.Length }
              resp.Params with
          | none => rw [hfold] at h; simp at h
          | some bd =>
            rw [hfold] at h
            simp only [] at h
            cases h
            refine ⟨[bd], rfl, ?_⟩
            intro c hc
            rw [List.mem_singleton] at hc
            subst hc
            exact foldTransferParams_idx ctx resp.Params _ _ hfold
        · rw [if_neg hfn] at h
          cases h
          exact ⟨[], (List.append_nil _).symm, by intro c hc; simp at hc⟩
      · by_cases hut : resp.CallModule = "Utility"
        · simp only [hts, hbal, hut, if_true, if_false, reduceIte] at h
          by_cases hfn : resp.CallModuleFunction = "batch"
          · rw [if_pos hfn] at h
            cases h
            refine ⟨resp.Params.flatMap (batchParamCandidates ctx ph resp i (remove0X ext)),
              rfl, ?_⟩
            intro c hc
            rw [List.mem_flatMap] at hc
            obtain ⟨p, _, hp⟩ := hc
            exact (batchParamCandidates_mem ctx ph resp i (remove0X ext) p c hp).1
          · rw [if_neg hfn] at h
            cases h
            exact ⟨[], (List.append_nil _).symm, by intro c hc; simp at hc⟩
        · simp only [hts, hbal, hut, if_false, reduceIte] at h
          cases h
          exact ⟨[], (List.append_nil _).symm, by intro c hc; simp at hc⟩

/-- All candidates accumulated by the loop over a suffix starting at index `i`
have indices below `i` plus the number of remaining extrinsics. -/
theorem processList_idx (ctx : ParseCtx) (ph : String) :
    ∀ (exts : List String) (i : Nat) (st st₁ : LoopState),
      processList ctx ph i exts st = .ok st₁ →
      (∀ c ∈ st.params, c.extrinsicIdx < i) →
      ∀ c ∈ st₁.params, c.extrinsicIdx < i + exts.length := by
  intro exts
  induction exts with
  | nil =>
    intro i st st₁ h hbound
    cases h
    simpa using hbound
  | cons ext rest ih =>
    intro i st st₁ h hbound
    unfold processList at h
    cases hstep : processOne ctx ph i ext st with
    | ok st₂ =>
      rw [hstep] at h
      obtain ⟨new, heq, hnew⟩ := processOne_ok_params ctx ph i ext st st₂ hstep
      have hbound₂ : ∀ c ∈ st₂.params, c.extrinsicIdx < i + 1 := by
        intro c hc
        rw [heq, List.mem_append] at hc
        rcases hc with hc | hc
        · exact Nat.lt_succ_of_lt (hbound c hc)
        · rw [hnew c hc]; omega
      have := ih (i + 1) st₂ st₁ h hbound₂
      intro c hc
      have hlt := this c hc
      simp only [List.length_cons]
      omega
    | err m => rw [hstep] at h; simp at h
    | panicked st₂ => rw [hstep] at h; simp at h

/-- Every entry the decode stage emits has an extrinsic index that is an
actual position in the block's extrinsic list. -/
theorem parseExtrinsicByDecode_indices (ctx : ParseCtx) (exts : List String)
    (br out : BlockResponse) (h : parseExtrinsicByDecode ctx exts br = .ok out) :
    ∀ e ∈ out.Extrinsic, e.ExtrinsicIndex < exts.length := by
  unfold parseExtrinsicByDecode at h
  cases hp : processList ctx br.ParentHash 0 exts {} with
  | err m => rw [hp] at h; simp at h
  | panicked st =>
    rw [hp] at h
    simp only [] at h
    cases h
    intro e he
    simp at he
  | ok st =>
    rw [hp] at h
    dsimp only at h
    by_cases hlen : st.params.length = 0
    · rw [if_pos hlen] at h
      cases h
      intro e he
      simp at he
    · rw [if_neg hlen] at h
      cases h
      intro e he
      simp only [List.mem_map] at he
      obtain ⟨c, hc, rfl⟩ := he
      have := processList_idx ctx br.ParentHash exts 0 {} st hp
        (by intro c hc; simp [LoopState.params] at hc) c hc
      simpa [toExtrinsicResponse] using this

/-- One correlation step never changes the entry's extrinsic index or its
recipient (a match overwrites the recipient with an equal value). -/
theorem corrStep_fields (fm : List Nat) (e : ExtrinsicResponse) (r : EventResult) :
    (corrStep fm e r).ExtrinsicIndex = e.ExtrinsicIndex ∧
    (corrStep fm e r).ToAddress = e.ToAddress := by
  unfold corrStep
  by_cases hidx : e.ExtrinsicIndex = r.ExtrinsicIdx
  · by_cases hto : e.ToAddress = r.To
    · rw [if_pos hidx, if_pos hto]
      exact ⟨rfl, hto.symm⟩
    · rw [if_pos hidx, if_neg hto]
      exact ⟨rfl, rfl⟩
  · rw [if_neg hidx]
    exact ⟨rfl, rfl⟩

/-- The whole correlation fold preserves extrinsic index and recipient. -/
theorem foldl_corrStep_fields (fm : List Nat) :
    ∀ (res : List EventResult) (e : ExtrinsicResponse),
      (res.foldl (corrStep fm) e).ExtrinsicIndex = e.ExtrinsicIndex ∧
      (res.foldl (corrStep fm) e).ToAddress = e.ToAddress := by
  intro res
  induction res with
  | nil => intro e; exact ⟨rfl, rfl⟩
  | cons r rest ih =>
    intro e
    have h₁ := corrStep_fields fm e r
    have h₂ := ih (corrStep fm e r)
    simp only [List.foldl_cons]
    exact ⟨h₂.1.trans h₁.1, h₂.2.trans h₁.2⟩

/-- Status resolution preserves each entry's extrinsic index. -/
theorem correlateEntry_index (fm : List Nat) (res : List EventResult)
    (e : ExtrinsicResponse) :
    (correlateEntry fm res e).ExtrinsicIndex = e.ExtrinsicIndex := by
  unfold correlateEntry
  by_cases hres : res.length > 0
  · rw [if_pos hres]
    exact (foldl_corrStep_fields fm res _).1
  · rw [if_neg hres]

/-- C6 counterexample: a single Utility.batch extrinsic with two batched
transfers yields a report whose two entries share extrinsic index 0 — entry
indices are not unique across the report. -/
theorem report_index_unique_cx :
    (buildTransferReport demoParseCtx demoSS58 [] [] ["b1"] demoBlock).toOption.map
      (fun out => out.Extrinsic.map (fun e => e.ExtrinsicIndex)) = some [0, 0] := rfl

/-- C6 (amended): every entry of a transfer report has an extrinsic index
that is an actual extrinsic position in the block (index < number of
extrinsics); indices need not be unique — all candidates extracted from one
batch extrinsic share its index. -/
theorem report_indices_valid (ctx : ParseCtx) (ss : String → Except String String)
    (transfers : List EventBalancesTransfer) (failedEvents : List EventExtrinsicFailed)
    (exts : List String) (br out : BlockResponse)
    (h : buildTransferReport ctx ss transfers failedEvents exts br = .ok out) :
    ∀ e ∈ out.Extrinsic, e.ExtrinsicIndex < exts.length := by
  unfold buildTransferReport at h
  cases hd : parseExtrinsicByDecode ctx exts br with
  | error m => rw [hd] at h; simp at h
  | ok br₁ =>
    rw [hd] at h
    dsimp only at h
    cases h
    have hidx := parseExtrinsicByDecode_indices ctx exts br br₁ hd
    unfold parseExtrinsicByStorage
    by_cases hlen : br₁.Extrinsic.length ≤ 0
    · rw [if_pos hlen]
      exact hidx
    · rw [if_neg hlen]
      intro e he
      simp only [List.mem_map] at he
      obtain ⟨e₀, he₀, rfl⟩ := he
      rw [correlateEntry_index]
      exact hidx e₀ he₀

/-- C6 amended witness: the first entry of the sample batch block's report
points at extrinsic position 0 < 1. -/
theorem report_indices_valid_witness :
    (correlateEntry [] [] (toExtrinsicResponse
      (batchCandidate demoParseCtx "ph" demoBatchResp 0 "b1" ⟨"dest", "d1"⟩))).ExtrinsicIndex <
      (["b1"] : List String).length :=
  report_indices_valid demoParseCtx demoSS58 [] [] ["b1"] demoBlock _ rfl
    (correlateEntry [] [] (toExtrinsicResponse
      (batchCandidate demoParseCtx "ph" demoBatchResp 0 "b1" ⟨"dest", "d1"⟩))) (by decide)

/-- C8: a panic recovered anywhere while processing one extrinsic of the block
makes `parseExtrinsicByDecode` return successfully (no error) with an empty
transfer list and the timestamp collected up to the panic. -/
theorem decode_panic_graceful (ctx : ParseCtx) (br : BlockResponse)
    (pre post : List String) (ext : String) (st stP : LoopState)
    (hpre : processList ctx br.ParentHash 0 pre {} = .ok st)
    (hpanic : processOne ctx br.ParentHash pre.length ext st = .panicked stP) :
    parseExtrinsicByDecode ctx (pre ++ ext :: post) br =
      .ok { br with Timestamp := stP.timestamp, Extrinsic := [] } := by
  unfold parseExtrinsicByDecode
  rw [processList_append]
  rw [hpre]
  dsimp only
  rw [Nat.zero_add]
  unfold processList
  rw [hpanic]

/-- C8 witness: a block whose first extrinsic sets timestamp 1234 and whose
second extrinsic panics during decoding parses to a no-error result with an
empty transfer list and timestamp 1234. -/
theorem decode_panic_graceful_witness :
    processList demoParseCtx demoBlock.ParentHash 0 ["ts"] {} =
      .ok { params := [], timestamp := 1234 } ∧
    processOne demoParseCtx demoBlock.ParentHash 1 "boom"
      { params := [], timestamp := 1234 } = .panicked { params := [], timestamp := 1234 } ∧
    parseExtrinsicByDecode demoParseCtx (["ts"] ++ "boom" :: []) demoBlock =
      .ok { demoBlock with Timestamp := 1234, Extrinsic := [] } :=
  ⟨rfl, rfl,
    decode_panic_graceful demoParseCtx demoBlock ["ts"] [] "boom"
      { params := [], timestamp := 1234 } { params := [], timestamp := 1234 } rfl rfl⟩

/-- C5: a block whose single extrinsic is a Utility.batch carrying exactly two
Balances transfer (or transfer_keep_alive) sub-calls, each with the usual
`dest`/`value` argument pair, produces exactly two report entries, and both
share the enclosing batch extrinsic's index, signature, nonce and transaction
id. -/
theorem batch_two_candidates (ctx : ParseCtx) (br : BlockResponse) (ext : String)
    (resp : ExtrinsicDecodeResponse) (p : ExtrinsicParam) (xs : List JValue)
    (v₁ v₂ : UtilityParamsValue) (d₁ w₁ d₂ w₂ : UtilityCallArg)
    (hdec : ctx.decodeOne (remove0X ext) = .ok resp)
    (hmod : resp.CallModule = "Utility")
    (hfn : resp.CallModuleFunction = "batch")
    (hps : resp.Params = [p]) (hpn : p.Name = "calls") (hpv : p.Value = JValue.list xs)
    (hu : ctx.parseUtilityValues (JValue.list xs) = .ok [v₁, v₂])
    (hm₁ : v₁.CallModule = "Balances")
    (hf₁ : v₁.CallFunction = "transfer" ∨ v₁.CallFunction = "transfer_keep_alive")
    (ha₁ : v₁.CallArgs = [d₁, w₁]) (hd₁ : d₁.Name = "dest") (hw₁ : w₁.Name = "value")
    (hm₂ : v₂.CallModule = "Balances")
    (hf₂ : v₂.CallFunction = "transfer" ∨ v₂.CallFunction = "transfer_keep_alive")
    (ha₂ : v₂.CallArgs = [d₂, w₂]) (hd₂ : d₂.Name = "dest") (hw₂ : w₂.Name = "value") :
    ∃ e₁ e₂,
      parseExtrinsicByDecode ctx [ext] br =
        .ok { br with Timestamp := 0, Extrinsic := [e₁, e₂] } ∧
      e₁.ExtrinsicIndex = 0 ∧ e₂.ExtrinsicIndex = 0 ∧
      e₁.Signature = resp.Signature ∧ e₂.Signature = resp.Signature ∧
      e₁.Nonce = resp.Nonce ∧ e₂.Nonce = resp.Nonce ∧
      e₁.Txid = createTxHash ctx (remove0X ext) ∧
      e₂.Txid = createTxHash ctx (remove0X ext) := by
  refine ⟨toExtrinsicResponse (batchCandidate ctx br.ParentHash resp 0 (remove0X ext) d₁),
          toExtrinsicResponse (batchCandidate ctx br.ParentHash resp 0 (remove0X ext) d₂),
          ?_, rfl, rfl, rfl, rfl, rfl, rfl, rfl, rfl⟩
  rcases hf₁ with hf₁ | hf₁ <;> rcases hf₂ with hf₂ | hf₂ <;>
    simp [parseExtrinsicByDecode, processList, processOne, batchParamCandidates,
      candidatesOfUtilityValue, batchCandidate, toExtrinsicResponse,
      hdec, hmod, hfn, hps, hpn, hpv, hu, hm₁, hf₁, ha₁, hd₁, hw₁, hm₂, hf₂, ha₂, hd₂, hw₂]

/-- C5 witness: the sample batch block yields exactly two entries sharing
index, signature, nonce and txid of the enclosing batch extrinsic. -/
theorem batch_two_candidates_witness :
    ∃ e₁ e₂,
      parseExtrinsicByDecode demoParseCtx ["b1"] demoBlock =
        .ok { demoBlock with Timestamp := 0, Extrinsic := [e₁, e₂] } ∧
      e₁.ExtrinsicIndex = 0 ∧ e₂.ExtrinsicIndex = 0 ∧
      e₁.Signature = demoBatchResp.Signature ∧ e₂.Signature = demoBatchResp.Signature ∧
      e₁.Nonce = demoBatchResp.Nonce ∧ e₂.Nonce = demoBatchResp.Nonce ∧
      e₁.Txid = createTxHash demoParseCtx (remove0X "b1") ∧
      e₂.Txid = createTxHash demoParseCtx (remove0X "b1") :=
  batch_two_candidates demoParseCtx demoBlock "b1" demoBatchResp
    ⟨"calls", JValue.list [JValue.null]⟩ [JValue.null] demoSubcall₁ demoSubcall₂
    ⟨"dest", "d1"⟩ ⟨"value", "5"⟩ ⟨"dest", "d2"⟩ ⟨"value", "6"⟩
    rfl rfl rfl rfl rfl rfl rfl rfl (Or.inl rfl) rfl rfl rfl rfl (Or.inl rfl) rfl rfl rfl

/-- C4 counterexample: a recognized transfer inside a Utility.batch produces
candidates whose recipients are populated but whose amount is missing (empty)
— the batch path never reads a `value` argument. -/
theorem recognized_transfer_missing_amount_cx :
    demoBatchResp.CallModule = "Utility" ∧ demoBatchResp.CallModuleFunction = "batch" ∧
    demoSubcall₁.CallModule = "Balances" ∧ demoSubcall₁.CallFunction = "transfer" ∧
    (parseExtrinsicByDecode demoParseCtx ["b1"] demoBlock).toOption.map
      (fun br => br.Extrinsic.map (fun e => (e.ToAddress, e.Amount))) =
      some [("Ad1", ""), ("Ad2", "")] :=
  ⟨rfl, rfl, rfl, rfl, rfl⟩

/-- C4 (amended): a direct Balances transfer whose parameters carry a string
`dest` (ss58-encodable) and a string `value` yields a fully populated
candidate with exactly that recipient and amount; but a candidate extracted
from a Utility.batch extrinsic always has an empty amount (and zero recorded
length) — the event correlator, not the decoder, fills batch amounts in
later. -/
theorem transfer_candidate_population (ctx : ParseCtx) (br : BlockResponse) :
    (∀ ext resp d v s val t,
       ctx.decodeOne (remove0X ext) = .ok resp →
       resp.CallModule = "Balances" →
       (resp.CallModuleFunction = "transfer" ∨
        resp.CallModuleFunction = "transfer_keep_alive") →
       resp.Params = [d, v] →
       d.Name = "dest" → d.Value = JValue.str s → ctx.ss58Encode s = .ok t →
       v.Name = "value" → v.Value = JValue.str val →
       ∃ e, parseExtrinsicByDecode ctx [ext] br =
         .ok { br with Timestamp := 0, Extrinsic := [e] } ∧
         e.ToAddress = t ∧ e.Amount = val) ∧
    (∀ ext resp out,
       ctx.decodeOne (remove0X ext) = .ok resp →
       resp.CallModule = "Utility" →
       parseExtrinsicByDecode ctx [ext] br = .ok out →
       ∀ e ∈ out.Extrinsic, e.Amount = "" ∧ e.ExtrinsicLength = 0) := by
  constructor
  · intro ext resp d v s val t hdec hmod hfn hps hd hdv hss hv hvv
    refine ⟨toExtrinsicResponse
      { from_ := orEmpty (ctx.ss58Encode resp.AccountId), to_ := t, sig := resp.Signature,
        era := resp.Era, txid := createTxHash ctx (remove0X ext), nonce := resp.Nonce,
        extrinsicIdx := 0, length := resp.Length, amount := val,
        Fee := orEmpty (ctx.getPartialFee (remove0X ext) br.ParentHash) }, ?_, rfl, rfl⟩
    rcases hfn with hfn | hfn <;>
      simp [parseExtrinsicByDecode, processList, processOne, foldTransferParams,
        applyTransferParam, assertString, toExtrinsicResponse, orEmpty,
        hdec, hmod, hfn, hps, hd, hdv, hss, hv, hvv]
  · intro ext resp out hdec hmod hout
    simp only [parseExtrinsicByDecode, processList, processOne, hdec, hmod,
      String.reduceEq, reduceIte, if_true, if_false] at hout
    by_cases hb : resp.CallModuleFunction = "batch"
    · simp only [hb, String.reduceEq, reduceIte, if_true, if_false,
        List.nil_append] at hout
      by_cases hlen : (resp.Params.flatMap
          (batchParamCandidates ctx br.ParentHash resp 0 (remove0X ext))).length = 0
      · rw [if_pos hlen] at hout
        cases hout
        intro e he
        simp at he
      · rw [if_neg hlen] at hout
        cases hout
        intro e he
        simp only [List.mem_map] at he
        obtain ⟨c, hc, rfl⟩ := he
        rw [List.mem_flatMap] at hc
        obtain ⟨q, _, hq⟩ := hc
        have hmem := batchParamCandidates_mem ctx br.ParentHash resp 0 (remove0X ext) q c hq
        exact ⟨hmem.2.1, hmem.2.2.1⟩
    · simp only [hb, String.reduceEq, reduceIte, if_true, if_false] at hout
      cases hout
      intro e he
      simp at he

/-- C4 amended witness: the sample direct transfer yields recipient `Add` and
amount `55`; the first sample batch candidate has empty amount and zero
length. -/
theorem transfer_candidate_population_witness :
    (∃ e, parseExtrinsicByDecode demoParseCtx ["t1"] demoBlock =
        .ok { demoBlock with Timestamp := 0, Extrinsic := [e] } ∧
        e.ToAddress = "Add" ∧ e.Amount = "55") ∧
    ((toExtrinsicResponse
        (batchCandidate demoParseCtx "ph" demoBatchResp 0 "b1" ⟨"dest", "d1"⟩)).Amount = "" ∧
     (toExtrinsicResponse
        (batchCandidate demoParseCtx "ph" demoBatchResp 0 "b1" ⟨"dest", "d1"⟩)).ExtrinsicLength = 0) :=
  ⟨(transfer_candidate_population demoParseCtx demoBlock).1 "t1" demoTransferResp
      ⟨"dest", JValue.str "dd"⟩ ⟨"value", JValue.str "55"⟩ "dd" "55" "Add"
      rfl rfl (Or.inl rfl) rfl rfl rfl rfl rfl rfl,
   (transfer_candidate_population demoParseCtx demoBlock).2 "b1" demoBatchResp _
      rfl rfl rfl
      (toExtrinsicResponse (batchCandidate demoParseCtx "ph" demoBatchResp 0 "b1" ⟨"dest", "d1"⟩))
      (by decide)⟩

/-- A non-matching event leaves the entry untouched. -/
theorem corrStep_no_match (fm : List Nat) (e : ExtrinsicResponse) (r : EventResult)
    (h : ¬(e.ExtrinsicIndex = r.ExtrinsicIdx ∧ e.ToAddress = r.To)) :
    corrStep fm e r = e := by
  unfold corrStep
  by_cases h1 : e.ExtrinsicIndex = r.ExtrinsicIdx
  · rw [if_pos h1, if_neg (fun h2 => h ⟨h1, h2⟩)]
  · rw [if_neg h1]

/-- With no matching event in the list, the correlation fold is the
identity. -/
theorem foldl_corr_no_match (fm : List Nat) :
    ∀ (res : List EventResult) (e : ExtrinsicResponse),
      (∀ r ∈ res, ¬(e.ExtrinsicIndex = r.ExtrinsicIdx ∧ e.ToAddress = r.To)) →
      res.foldl (corrStep fm) e = e := by
  intro res
  induction res with
  | nil => intro e _; rfl
  | cons r rest ih =>
    intro e h
    have h0 := corrStep_no_match fm e r (h r (List.mem_cons_self r rest))
    simp only [List.foldl_cons, h0]
    exact ih e (fun q hq => h q (List.mem_cons_of_mem r hq))

/-- With at least one matching event, the correlation fold resolves the status
against the failure set, keeps the type tag, and takes its amount from one of
the matching events. -/
theorem foldl_corr_match (fm : List Nat) :
    ∀ (res : List EventResult) (e : ExtrinsicResponse),
      e.TypeTag = "transfer" →
      (∃ r ∈ res, e.ExtrinsicIndex = r.ExtrinsicIdx ∧ e.ToAddress = r.To) →
      (res.foldl (corrStep fm) e).Status =
        (if fm.contains e.ExtrinsicIndex then "fail" else "success") ∧
      (res.foldl (corrStep fm) e).TypeTag = "transfer" ∧
      ∃ r ∈ res, (e.ExtrinsicIndex = r.ExtrinsicIdx ∧ e.ToAddress = r.To) ∧
        (res.foldl (corrStep fm) e).Amount = r.Amount := by
  intro res
  induction res with
  | nil =>
    intro e _ hex
    simp at hex
  | cons r rest ih =>
    intro e htag hex
    by_cases hr : e.ExtrinsicIndex = r.ExtrinsicIdx ∧ e.ToAddress = r.To
    · have hstep : corrStep fm e r =
          { e with Status := if fm.contains e.ExtrinsicIndex then "fail" else "success",
                   TypeTag := "transfer", Amount := r.Amount, ToAddress := r.To } := by
        unfold corrStep
        rw [if_pos hr.1, if_pos hr.2]
      have hidx₂ : (corrStep fm e r).ExtrinsicIndex = e.ExtrinsicIndex :=
        (corrStep_fields fm e r).1
      have hto₂ : (corrStep fm e r).ToAddress = e.ToAddress :=
        (corrStep_fields fm e r).2
      have htag₂ : (corrStep fm e r).TypeTag = "transfer" := by rw [hstep]
      by_cases hrest : ∃ q ∈ rest, e.ExtrinsicIndex = q.ExtrinsicIdx ∧ e.ToAddress = q.To
      · have hex₂ : ∃ q ∈ rest, (corrStep fm e r).ExtrinsicIndex = q.ExtrinsicIdx ∧
            (corrStep fm e r).ToAddress = q.To := by
          obtain ⟨q, hq, h1, h2⟩ := hrest
          exact ⟨q, hq, by rw [hidx₂]; exact h1, by rw [hto₂]; exact h2⟩
        have hmain := ih (corrStep fm e r) htag₂ hex₂
        simp only [List.foldl_cons]
        refine ⟨?_, hmain.2.1, ?_⟩
        · rw [hmain.1, hidx₂]
        · obtain ⟨q, hq, ⟨h1, h2⟩, hamt⟩ := hmain.2.2
          exact ⟨q, List.mem_cons_of_mem r hq,
            ⟨by rw [← hidx₂]; exact h1, by rw [← hto₂]; exact h2⟩, hamt⟩
      · have hnone : ∀ q ∈ rest, ¬((corrStep fm e r).ExtrinsicIndex = q.ExtrinsicIdx ∧
            (corrStep fm e r).ToAddress = q.To) := by
          intro q hq hcontra
          exact hrest ⟨q, hq, by rw [← hidx₂]; exact hcontra.1,
            by rw [← hto₂]; exact hcontra.2⟩
        simp only [List.foldl_cons]
        rw [foldl_corr_no_match fm rest _ hnone, hstep]
        exact ⟨rfl, rfl, r, List.mem_cons_self r rest, hr, rfl⟩
    · have hstep := corrStep_no_match fm e r hr
      have hex' : ∃ q ∈ rest, e.ExtrinsicIndex = q.ExtrinsicIdx ∧ e.ToAddress = q.To := by
        obtain ⟨q, hq, hprop⟩ := hex
        rcases List.mem_cons.mp hq with rfl | hmem
        · exact absurd hprop hr
        · exact ⟨q, hmem, hprop⟩
      simp only [List.foldl_cons, hstep]
      have hmain := ih e htag hex'
      refine ⟨hmain.1, hmain.2.1, ?_⟩
      obtain ⟨q, hq, hp, ha⟩ := hmain.2.2
      exact ⟨q, List.mem_cons_of_mem r hq, hp, ha⟩

/-- `getD` through `map` at an in-range position. -/
theorem map_getD (f : ExtrinsicResponse → ExtrinsicResponse) (l : List ExtrinsicResponse)
    (i : Nat) (h : i < l.length) :
    (l.map f).getD i default = f (l.getD i default) := by
  rw [List.getD_eq_getElem l default h,
      List.getD_eq_getElem (l.map f) default (by simpa using h)]
  exact List.getElem_map f

/-- C1: a report entry ends with status `success` exactly when some
event-derived balance transfer shares its extrinsic index and resolved
recipient address and that index is not in the extrinsic-failed set; a matched
entry's amount and recipient are overwritten with a matching event's values; an
unmatched entry keeps all its decoded-call values and ends with status `fail`
(and the type tag `transfer`); every entry ends `success` or `fail`. -/
theorem eventCorrelator_status (ss : String → Except String String)
    (transfers : List EventBalancesTransfer) (failedEvents : List EventExtrinsicFailed)
    (br : BlockResponse) (i : Nat) (e e' : ExtrinsicResponse)
    (hi : i < br.Extrinsic.length)
    (he : br.Extrinsic.getD i default = e)
    (he' : (parseExtrinsicByStorage ss transfers failedEvents br).Extrinsic.getD i default = e') :
    (e'.Status = "success" ↔
      ((∃ r ∈ buildEventResults ss transfers,
          e.ExtrinsicIndex = r.ExtrinsicIdx ∧ e.ToAddress = r.To) ∧
       (buildFailedMap failedEvents).contains e.ExtrinsicIndex = false)) ∧
    ((∃ r ∈ buildEventResults ss transfers,
        e.ExtrinsicIndex = r.ExtrinsicIdx ∧ e.ToAddress = r.To) →
      ∃ r ∈ buildEventResults ss transfers,
        (e.ExtrinsicIndex = r.ExtrinsicIdx ∧ e.ToAddress = r.To) ∧
        e'.Amount = r.Amount ∧ e'.ToAddress = r.To) ∧
    ((¬ ∃ r ∈ buildEventResults ss transfers,
        e.ExtrinsicIndex = r.ExtrinsicIdx ∧ e.ToAddress = r.To) →
      e' = { e with Status := "fail", TypeTag := "transfer" }) ∧
    (e'.Status = "success" ∨ e'.Status = "fail") := by
  have hlen : ¬(br.Extrinsic.length ≤ 0) := by omega
  have hout : e' = correlateEntry
      (if transfers.length > 0 then buildFailedMap failedEvents else [])
      (if transfers.length > 0 then buildEventResults ss transfers else [])
      e := by
    rw [← he', ← he]
    unfold parseExtrinsicByStorage
    rw [if_neg hlen]
    exact map_getD _ _ i hi
  by_cases hmatch : ∃ r ∈ buildEventResults ss transfers,
      e.ExtrinsicIndex = r.ExtrinsicIdx ∧ e.ToAddress = r.To
  · have htrans : transfers.length > 0 := by
      obtain ⟨r, hrmem, _⟩ := hmatch
      cases transfers with
      | nil => simp [buildEventResults] at hrmem
      | cons a l => simp
    have hres : (buildEventResults ss transfers).length > 0 := by
      obtain ⟨r, hrmem, _⟩ := hmatch
      exact List.length_pos_of_mem hrmem
    rw [if_pos htrans, if_pos htrans] at hout
    have he₂ : e' = (buildEventResults ss transfers).foldl
        (corrStep (buildFailedMap failedEvents))
        { e with Status := "fail", TypeTag := "transfer" } := by
      rw [hout]
      unfold correlateEntry
      rw [if_pos hres]
    have hex₁ : ∃ r ∈ buildEventResults ss transfers,
        ({ e with Status := "fail", TypeTag := "transfer" }
          : ExtrinsicResponse).ExtrinsicIndex = r.ExtrinsicIdx ∧
        ({ e with Status := "fail", TypeTag := "transfer" }
          : ExtrinsicResponse).ToAddress = r.To := hmatch
    have hfold := foldl_corr_match (buildFailedMap failedEvents)
        (buildEventResults ss transfers)
        { e with Status := "fail", TypeTag := "transfer" } rfl hex₁
    rw [← he₂] at hfold
    have hto : e'.ToAddress = e.ToAddress := by
      rw [he₂]
      exact (foldl_corrStep_fields (buildFailedMap failedEvents)
        (buildEventResults ss transfers) _).2
    refine ⟨?_, ?_, ?_, ?_⟩
    · constructor
      · intro hsucc
        refine ⟨hmatch, ?_⟩
        by_cases hc : (buildFailedMap failedEvents).contains e.ExtrinsicIndex = true
        · rw [hfold.1, if_pos hc] at hsucc
          exact absurd hsucc (by decide)
        · simpa using hc
      · rintro ⟨_, hcfalse⟩
        rw [hfold.1, if_neg (by rw [hcfalse]; simp)]
    · intro _
      obtain ⟨r, hm, hp, hamt⟩ := hfold.2.2
      exact ⟨r, hm, hp, hamt, by rw [hto]; exact hp.2⟩
    · intro hn
      exact absurd hmatch hn
    · by_cases hc : (buildFailedMap failedEvents).contains e.ExtrinsicIndex = true
      · right
        rw [hfold.1, if_pos hc]
      · left
        rw [hfold.1, if_neg hc]
  · have hnone : ∀ r ∈ (if transfers.length > 0 then buildEventResults ss transfers else []),
        ¬(({ e with Status := "fail", TypeTag := "transfer" }
            : ExtrinsicResponse).ExtrinsicIndex = r.ExtrinsicIdx ∧
          ({ e with Status := "fail", TypeTag := "transfer" }
            : ExtrinsicResponse).ToAddress = r.To) := by
      intro r hr hcontra
      apply hmatch
      by_cases ht : transfers.length > 0
      · rw [if_pos ht] at hr
        exact ⟨r, hr, hcontra⟩
      · rw [if_neg ht] at hr
        simp at hr
    have he₁ : e' = { e with Status := "fail", TypeTag := "transfer" } := by
      rw [hout]
      unfold correlateEntry
      by_cases hres : (if transfers.length > 0 then
          buildEventResults ss transfers else []).length > 0
      · rw [if_pos hres]
        exact foldl_corr_no_match _ _ _ hnone
      · rw [if_neg hres]
    refine ⟨?_, fun hm => absurd hm hmatch, fun _ => he₁, ?_⟩
    · rw [he₁]
      constructor
      · intro h
        simp at h
      · rintro ⟨hm, _⟩
        exact absurd hm hmatch
    · rw [he₁]
      right
      rfl

/-- C1 witness: a block with one entry (index 0, recipient `A01`), one
matching success event (amount 42) and no failure events — the entry is marked
`success` and its amount is overwritten with 42. -/
theorem eventCorrelator_status_witness :
    (({ demoEntry with Status := "success", TypeTag := "transfer", Amount := "42" }
        : ExtrinsicResponse).Status = "success" ↔
      ((∃ r ∈ buildEventResults demoSS58 [demoEventTransfer],
          demoEntry.ExtrinsicIndex = r.ExtrinsicIdx ∧ demoEntry.ToAddress = r.To) ∧
       (buildFailedMap []).contains demoEntry.ExtrinsicIndex = false)) ∧
    ((∃ r ∈ buildEventResults demoSS58 [demoEventTransfer],
        demoEntry.ExtrinsicIndex = r.ExtrinsicIdx ∧ demoEntry.ToAddress = r.To) →
      ∃ r ∈ buildEventResults demoSS58 [demoEventTransfer],
        (demoEntry.ExtrinsicIndex = r.ExtrinsicIdx ∧ demoEntry.ToAddress = r.To) ∧
        ({ demoEntry with Status := "success", TypeTag := "transfer", Amount := "42" }
          : ExtrinsicResponse).Amount = r.Amount ∧
        ({ demoEntry with Status := "success", TypeTag := "transfer", Amount := "42" }
          : ExtrinsicResponse).ToAddress = r.To) ∧
    ((¬ ∃ r ∈ buildEventResults demoSS58 [demoEventTransfer],
        demoEntry.ExtrinsicIndex = r.ExtrinsicIdx ∧ demoEntry.ToAddress = r.To) →
      ({ demoEntry with Status := "success", TypeTag := "transfer", Amount := "42" }
        : ExtrinsicResponse) = { demoEntry with Status := "fail", TypeTag := "transfer" }) ∧
    (({ demoEntry with Status := "success", TypeTag := "transfer", Amount := "42" }
        : ExtrinsicResponse).Status = "success" ∨
     ({ demoEntry with Status := "success", TypeTag := "transfer", Amount := "42" }
        : ExtrinsicResponse).Status = "fail") :=
  eventCorrelator_status demoSS58 [demoEventTransfer] [] demoReportBlock 0 demoEntry
    { demoEntry with Status := "success", TypeTag := "transfer", Amount := "42" }
    (by decide) rfl rfl
